import Mathlib

/-!
Verification of the client-side graph state model of the human-link-map
repository (an interactive relationship-mapping tool).

The embedding below translates, at the level of runtime values, the state
and operations of the KnowledgeMap component (src/unnamed/part_000, third
document, the variant with categories and filters) together with the data
hook useKnowledgeMapData (src/src/hooks/useKnowledgeMapData.ts).

Modelling decisions, all taken from the source:
- A proximity is a plain string at runtime (the TypeScript union
  Proximity = fort | moyen | faible is erased at runtime, and the import
  path can in fact store other strings, see importPersonRow).
- Optional TypeScript fields become Option in Lean; the JavaScript
  truthiness test used by the source on strings (empty string is falsy)
  is modelled by jsTruthyOpt.
- Positions are pairs of integers (the source only moves numbers around,
  never computes with them, so the numeric carrier is irrelevant).
- The spreadsheet codec (the external xlsx collaborator) is modelled as an
  identity row store: a workbook is the pair of optional sheets, a sheet a
  list of rows whose cells are either absent, a string, or a number,
  exactly the shapes the import code inspects.
- Random id generation (genId) is modelled by threading an explicit
  generator function; no claim depends on the generated values.
-/

namespace HumanLinkMap

/-- Runtime shape of a Person record of the KnowledgeMap component
(src/unnamed/part_000, interface Person): id, firstName, lastName,
optional company and comment, proximity (a string at runtime), optional
categories list, optional position. -/
structure Person where
  id : String
  firstName : String
  lastName : String
  company : Option String
  comment : Option String
  proximity : String
  categories : Option (List String)
  position : Option (Int × Int)
deriving DecidableEq, Repr

/-- Runtime shape of a Relation record (src/unnamed/part_000, interface
Relation): id, sourceId, targetId, proximity. -/
structure Relation where
  id : String
  sourceId : String
  targetId : String
  proximity : String
deriving DecidableEq, Repr

/-- A ReactFlow Connection as far as the component reads it: optional
source and target node ids (both may be null at the type of the library). -/
structure Connection where
  source : Option String
  target : Option String
deriving DecidableEq, Repr

/-- The in-memory session state the component mutates: the persons list,
the relations list, and the pending-connection slot of the two-step
connect gesture. -/
structure MapState where
  persons : List Person
  relations : List Relation
  pendingConnect : Option Connection
deriving DecidableEq, Repr

/-- Default relation used only as the out-of-range placeholder of
List.getD in theorem statements. -/
def dRel : Relation := { id := "", sourceId := "", targetId := "", proximity := "" }

/-- JavaScript truthiness on an optional string: undefined and the empty
string are falsy. Models expressions of the form (x ? f x : undefined)
where x is a string column of a row. -/
def jsTruthyOpt : Option String → Option String
  | some s => if s = "" then none else some s
  | none => none

/-- Substring test on character lists, needle first: does the haystack
start with the needle. -/
def charsStartWith : List Char → List Char → Bool
  | [], _ => true
  | _ :: _, [] => false
  | a :: as, b :: bs => a == b && charsStartWith as bs

/-- Substring test on character lists: does the needle occur anywhere in
the haystack (the empty needle always does, as in JavaScript includes). -/
def charsContain (needle : List Char) : List Char → Bool
  | [] => charsStartWith needle []
  | c :: rest => charsStartWith needle (c :: rest) || charsContain needle rest

/-- String containment, haystack first: models the JavaScript
String.prototype.includes call of the search filter. -/
def strContains (hay needle : String) : Bool :=
  charsContain needle.data hay.data

/-- JavaScript Array.prototype.join with a separator, on the string level. -/
def joinSep (sep : String) : List String → String
  | [] => ""
  | [s] => s
  | s :: rest => s ++ sep ++ joinSep sep rest

/-- JavaScript String.prototype.toLowerCase restricted to the ASCII range,
written over the character list so it evaluates inside the kernel. -/
def strToLower (s : String) : String :=
  ⟨s.data.map Char.toLower⟩

/-- Drop the leading whitespace characters of a character list. -/
def dropLeadingWs : List Char → List Char
  | [] => []
  | c :: cs => if c.isWhitespace then dropLeadingWs cs else c :: cs

/-- JavaScript String.prototype.trim: surrounding whitespace removed on
both sides. -/
def strTrim (s : String) : String :=
  ⟨(dropLeadingWs (dropLeadingWs s.data).reverse).reverse⟩

/-- Split a character list on a separator character, JavaScript split
semantics: the empty list yields one empty field. -/
def splitOnChar (sep : Char) : List Char → List (List Char)
  | [] => [[]]
  | c :: cs =>
    let r := splitOnChar sep cs
    if c == sep then [] :: r
    else
      match r with
      | [] => [[c]]
      | h :: t => (c :: h) :: t

/-- JavaScript String.prototype.split on the bar delimiter used for the
categories column. -/
def jsSplitBar (s : String) : List String :=
  (splitOnChar (Char.ofNat 124) s.data).map fun cs => ⟨cs⟩

/-- The search haystack of a person, as built by filteredPersons in
src/unnamed/part_000 lines 911 to 920: the array of firstName, lastName,
company and comment (empty string when absent), proximity, and the spread
categories, joined with single spaces. -/
def hayOf (p : Person) : String :=
  joinSep " "
    ([p.firstName, p.lastName, p.company.getD "", p.comment.getD "", p.proximity]
      ++ p.categories.getD [])

/-- The per-person filter predicate of filteredPersons
(src/unnamed/part_000 lines 905 to 923), with the three early returns of
the source in order; term is the already trimmed and lowercased search
term computed once outside the closure. -/
def personPasses (term pf : String) (cf : List String) (p : Person) : Bool :=
  if pf != "all" && p.proximity != pf then false
  else if !cf.isEmpty && !((p.categories.getD []).any fun c => cf.contains c) then false
  else if term = "" then true
  else strContains (strToLower (hayOf p)) term

/-- filteredPersons (src/unnamed/part_000 lines 905 to 923): trims and
lowercases the search box content, then filters the persons list with
personPasses. -/
def filteredPersons (persons : List Person) (search pf : String) (cf : List String) :
    List Person :=
  persons.filter (personPasses (strToLower (strTrim search)) pf cf)

/-- The relation-filtering step of initialEdges (src/unnamed/part_000
lines 946 to 959): keep exactly the relations whose two endpoints are ids
of persons surviving the filter. The subsequent map to rendered edge
records keeps id, source and target unchanged and is presentation only,
so it is omitted. -/
def visibleRelations (relations : List Relation) (keep : List Person) : List Relation :=
  let keepIds := keep.map Person.id
  relations.filter fun r => keepIds.contains r.sourceId && keepIds.contains r.targetId

/-- onDeletePerson (src/unnamed/part_000 lines 1035 to 1044) and the local
mutation of deletePerson (src/src/hooks/useKnowledgeMapData.ts lines 210
to 251): remove every person with the given id and every relation whose
sourceId or targetId equals it. Both removals happen in the same state
transition, so no caller ever observes an intermediate state. -/
def deletePerson (s : MapState) (i : String) : MapState :=
  { s with
    persons := s.persons.filter fun p => p.id != i
    relations := s.relations.filter fun r => r.sourceId != i && r.targetId != i }

/-- onConnect (src/unnamed/part_000 lines 970 to 972): store the gesture
as the pending connection; nothing else changes. -/
def onConnect (s : MapState) (c : Connection) : MapState :=
  { s with pendingConnect := some c }

/-- commitConnection (src/unnamed/part_000 lines 974 to 995): if the
pending connection or either of its endpoints is falsy, return without
any change; otherwise append one new relation built from the pending pair
and the chosen proximity, and clear the pending slot. fresh stands for
the genId result. -/
def commitConnection (s : MapState) (fresh : String) (prox : String) : MapState :=
  match s.pendingConnect with
  | none => s
  | some c =>
    match c.source, c.target with
    | some src, some tgt =>
      if src == "" || tgt == "" then s
      else
        { s with
          relations := s.relations ++
            [{ id := fresh, sourceId := src, targetId := tgt, proximity := prox }]
          pendingConnect := none }
    | _, _ => s

/-- Closing the proximity dialog without choosing (src/unnamed/part_000
line 1297, onOpenChange): clear the pending connection, create nothing. -/
def cancelConnection (s : MapState) : MapState :=
  { s with pendingConnect := none }

/-- The relation proximity editor (src/unnamed/part_000 lines 1263 to
1275, RelationSelector onChange): map over the relations, replacing the
proximity of those whose id matches the selected edge. -/
def updateRelationProximity (s : MapState) (rid : String) (p : String) : MapState :=
  { s with
    relations := s.relations.map fun r => if r.id == rid then { r with proximity := p } else r }

/-- addRelation of the data hook (src/src/hooks/useKnowledgeMapData.ts
lines 253 to 293): the row is first inserted in the knowledge_relations
table; only on success is the relation appended locally, otherwise an
error toast is shown and the local state is untouched. The server accepts
the insert exactly when the foreign keys
knowledge_relations_source_id_fkey and knowledge_relations_target_id_fkey
(declared in src/src/integrations/supabase/types.ts lines 90 to 105) are
satisfied, that is when both endpoint ids exist in the knowledge_persons
table, whose ids are passed here as serverPersonIds. Returns the new
state and whether an error was reported. -/
def addRelation (s : MapState) (serverPersonIds : List String) (fresh : String)
    (sid tid prox : String) : MapState × Bool :=
  if serverPersonIds.contains sid && serverPersonIds.contains tid then
    ({ s with relations := s.relations ++
        [{ id := fresh, sourceId := sid, targetId := tid, proximity := prox }] }, false)
  else
    (s, true)

/-- A spreadsheet cell as the import code distinguishes them: a string or
a number (typeof row.x === "number" is the only type test performed). -/
inductive CellVal where
  | str (s : String)
  | num (n : Int)
deriving DecidableEq, Repr

/-- A row of the Persons sheet: each column optional, textual columns as
strings, the x and y columns as raw cells since the import tests their
runtime type. -/
structure PersonRow where
  id : Option String
  firstName : Option String
  lastName : Option String
  company : Option String
  comment : Option String
  proximity : Option String
  categories : Option String
  x : Option CellVal
  y : Option CellVal
deriving DecidableEq, Repr

/-- A row of the Relations sheet. -/
structure RelationRow where
  id : Option String
  sourceId : Option String
  targetId : Option String
  proximity : Option String
deriving DecidableEq, Repr

/-- A workbook as the import inspects it: the two sheets looked up by
name, either possibly absent. -/
structure Workbook where
  personsSheet : Option (List PersonRow)
  relationsSheet : Option (List RelationRow)
deriving DecidableEq, Repr

/-- The person row written by exportExcel (src/unnamed/part_000 lines 1064
to 1075): every column present; absent company, comment and position
become empty-string cells, categories are joined with the bar delimiter. -/
def personToRow (p : Person) : PersonRow :=
  { id := some p.id
    firstName := some p.firstName
    lastName := some p.lastName
    company := some (p.company.getD "")
    comment := some (p.comment.getD "")
    proximity := some p.proximity
    categories := some (joinSep "|" (p.categories.getD []))
    x := some (match p.position with | some pos => CellVal.num pos.1 | none => CellVal.str "")
    y := some (match p.position with | some pos => CellVal.num pos.2 | none => CellVal.str "") }

/-- The relation row written by exportExcel (line 1076): the spread of the
relation record, all four columns present. -/
def relationToRow (r : Relation) : RelationRow :=
  { id := some r.id
    sourceId := some r.sourceId
    targetId := some r.targetId
    proximity := some r.proximity }

/-- exportExcel without the file write: the workbook holding the Persons
and Relations sheets built from the current state. -/
def exportWorkbook (s : MapState) : Workbook :=
  { personsSheet := some (s.persons.map personToRow)
    relationsSheet := some (s.relations.map relationToRow) }

/-- One Person built from an imported row (src/unnamed/part_000 lines 1099
to 1108). fresh stands for the genId value used when the id cell is
absent. Note that the proximity cell is only defaulted when absent: the
source writes (row.proximity as Proximity) ?? "moyen", and the as-cast
performs no runtime check, so any present string is stored unchanged. -/
def importPersonRow (fresh : String) (row : PersonRow) : Person :=
  { id := row.id.getD fresh
    firstName := row.firstName.getD ""
    lastName := row.lastName.getD ""
    company := jsTruthyOpt row.company
    comment := jsTruthyOpt row.comment
    proximity := row.proximity.getD "moyen"
    categories := some (match row.categories with
      | some s => if s = "" then [] else jsSplitBar s
      | none => [])
    position := match row.x, row.y with
      | some (CellVal.num x), some (CellVal.num y) => some (x, y)
      | _, _ => none }

/-- One Relation built from an imported row (src/unnamed/part_000 lines
1109 to 1114): absent endpoint ids become empty strings, absent proximity
becomes moyen (again with no check of present values). -/
def importRelationRow (fresh : String) (row : RelationRow) : Relation :=
  { id := row.id.getD fresh
    sourceId := row.sourceId.getD ""
    targetId := row.targetId.getD ""
    proximity := row.proximity.getD "moyen" }

/-- Map a row importer over a sheet, threading the index into the id
generator so each row missing an id gets its own fresh value. -/
def importRowsFrom {α β : Type} (f : String → α → β) (gen : Nat → String) :
    Nat → List α → List β
  | _, [] => []
  | n, r :: rest => f (gen n) r :: importRowsFrom f gen (n + 1) rest

/-- importExcel (src/unnamed/part_000 lines 1086 to 1120) after the codec
has produced the workbook: if either named sheet is absent, report the
invalid-file toast and leave the state untouched; otherwise replace both
collections with the imported rows. The Boolean is true exactly when the
format error was reported. -/
def importExcel (s : MapState) (wb : Workbook) (genP genR : Nat → String) :
    MapState × Bool :=
  match wb.personsSheet, wb.relationsSheet with
  | some pRows, some rRows =>
    ({ s with
        persons := importRowsFrom importPersonRow genP 0 pRows
        relations := importRowsFrom importRelationRow genR 0 rRows }, false)
  | _, _ => (s, true)

/-- The exact per-person effect of an export immediately followed by an
import: company and comment lose nothing except that an empty string
becomes absent, and the categories set is replaced by the re-split of its
bar-join (the identity whenever no member is empty or contains the bar;
an absent set becomes the empty set). Every other field is unchanged. -/
def normalizePerson (p : Person) : Person :=
  { p with
    company := jsTruthyOpt p.company
    comment := jsTruthyOpt p.comment
    categories := some
      (if joinSep "|" (p.categories.getD []) = "" then []
       else jsSplitBar (joinSep "|" (p.categories.getD []))) }

/-- C1: for every person id present in the store, deletePerson removes
that person and every relation whose sourceId or targetId equals the id,
in one state transition, so afterward no relation referencing the deleted
id remains; relations referencing neither endpoint are kept. -/
theorem deletePerson_cascade (s : MapState) (i : String)
    (h : ∃ p ∈ s.persons, p.id = i) :
    (∀ p ∈ (deletePerson s i).persons, p.id ≠ i) ∧
    (∀ r ∈ (deletePerson s i).relations, r.sourceId ≠ i ∧ r.targetId ≠ i) ∧
    (∀ r ∈ s.relations, r.sourceId ≠ i → r.targetId ≠ i →
      r ∈ (deletePerson s i).relations) := by
  refine ⟨?_, ?_, ?_⟩
  · intro p hp
    simp only [deletePerson, List.mem_filter, bne_iff_ne, ne_eq] at hp
    exact hp.2
  · intro r hr
    simp only [deletePerson, List.mem_filter, Bool.and_eq_true, bne_iff_ne, ne_eq] at hr
    exact hr.2
  · intro r hr h1 h2
    simp only [deletePerson, List.mem_filter, Bool.and_eq_true, bne_iff_ne, ne_eq]
    exact ⟨hr, h1, h2⟩

/-- Concrete two-person store used by several witnesses. -/
def sDemo : MapState :=
  { persons :=
      [{ id := "a", firstName := "Marie", lastName := "Dupont", company := none,
         comment := none, proximity := "fort", categories := some ["Partenaire"],
         position := some (3, 4) },
       { id := "b", firstName := "Jean", lastName := "Martin", company := none,
         comment := none, proximity := "moyen", categories := some [],
         position := none }]
    relations := [{ id := "r1", sourceId := "a", targetId := "b", proximity := "moyen" }]
    pendingConnect := none }

/-- Witness for C1: deleting person a from the demo store satisfies the
cascade conclusion. -/
theorem deletePerson_cascade_witness :
    (∃ p ∈ sDemo.persons, p.id = "a") ∧
    ((∀ p ∈ (deletePerson sDemo "a").persons, p.id ≠ "a") ∧
     (∀ r ∈ (deletePerson sDemo "a").relations, r.sourceId ≠ "a" ∧ r.targetId ≠ "a") ∧
     (∀ r ∈ sDemo.relations, r.sourceId ≠ "a" → r.targetId ≠ "a" →
       r ∈ (deletePerson sDemo "a").relations)) :=
  ⟨by decide, deletePerson_cascade sDemo "a" (by decide)⟩

/-- C9 amended: deletePerson on an id that is no person id leaves the
persons collection unchanged, and is a full no-op whenever additionally no
relation references the id (in particular in every referentially intact
store); dangling relations referencing the absent id are still removed. -/
theorem deletePerson_absent (s : MapState) (i : String)
    (h : ∀ p ∈ s.persons, p.id ≠ i) :
    (deletePerson s i).persons = s.persons ∧
    ((∀ r ∈ s.relations, r.sourceId ≠ i ∧ r.targetId ≠ i) → deletePerson s i = s) := by
  have hp : (s.persons.filter fun p => p.id != i) = s.persons := by
    refine List.filter_eq_self.mpr ?_
    intro a ha
    simpa [bne_iff_ne] using h a ha
  constructor
  · simpa [deletePerson] using hp
  · intro hr
    have hrr : (s.relations.filter fun r => r.sourceId != i && r.targetId != i)
        = s.relations := by
      refine List.filter_eq_self.mpr ?_
      intro a ha
      simp [bne_iff_ne, (hr a ha).1, (hr a ha).2]
    simp [deletePerson, hp, hrr]

/-- Witness for the amended C9: deleting the unknown id z from the demo
store changes nothing. -/
theorem deletePerson_absent_witness :
    (∀ p ∈ sDemo.persons, p.id ≠ "z") ∧
    ((deletePerson sDemo "z").persons = sDemo.persons ∧
     ((∀ r ∈ sDemo.relations, r.sourceId ≠ "z" ∧ r.targetId ≠ "z") →
       deletePerson sDemo "z" = sDemo)) :=
  ⟨by decide, deletePerson_absent sDemo "z" (by decide)⟩

/-- Store holding a dangling relation whose endpoints are no person ids;
reachable through import, which does not validate referential integrity. -/
def sGhost : MapState :=
  { persons := []
    relations := [{ id := "r9", sourceId := "ghost", targetId := "x", proximity := "moyen" }]
    pendingConnect := none }

/-- Counterexample to C9 as stated: ghost is no person id of sGhost, yet
deletePerson sGhost ghost changes the relations collection, because the
cascade filter also removes dangling relations referencing the absent id. -/
theorem deletePerson_absent_counterexample :
    (∀ p ∈ sGhost.persons, p.id ≠ "ghost") ∧
    (deletePerson sGhost "ghost").relations = [] ∧
    sGhost.relations ≠ [] := by decide

/-- C4: importing a workbook in which the Persons sheet or the Relations
sheet is absent reports the format error and returns the prior state
completely unchanged; neither collection is touched. -/
theorem importExcel_missing_sheet (s : MapState) (wb : Workbook)
    (genP genR : Nat → String)
    (h : wb.personsSheet = none ∨ wb.relationsSheet = none) :
    importExcel s wb genP genR = (s, true) := by
  rcases h with h | h
  · cases hr : wb.relationsSheet <;> simp [importExcel, h, hr]
  · cases hp : wb.personsSheet <;> simp [importExcel, h, hp]

/-- Workbook with a Persons sheet but no Relations sheet. -/
def wbNoRelations : Workbook :=
  { personsSheet := some [], relationsSheet := none }

/-- Witness for C4: importing the relation-less workbook over the demo
store reports the error and leaves the store as it was. -/
theorem importExcel_missing_sheet_witness :
    (wbNoRelations.personsSheet = none ∨ wbNoRelations.relationsSheet = none) ∧
    importExcel sDemo wbNoRelations (fun _ => "g") (fun _ => "g") = (sDemo, true) :=
  ⟨Or.inr rfl,
   importExcel_missing_sheet sDemo wbNoRelations (fun _ => "g") (fun _ => "g") (Or.inr rfl)⟩

/-- Person row whose proximity cell holds a string outside the enum. -/
def badPersonRow : PersonRow :=
  { id := some "p1", firstName := some "Alice", lastName := some "Durand",
    company := none, comment := none, proximity := some "inconnu",
    categories := none, x := none, y := none }

/-- Relation row whose proximity cell holds a string outside the enum. -/
def badRelationRow : RelationRow :=
  { id := some "r1", sourceId := some "p1", targetId := some "p1",
    proximity := some "inconnu" }

/-- C7 failing-input evaluation: the import keeps an unrecognized present
proximity string unchanged instead of defaulting it to moyen, because the
as-cast of the source performs no runtime check and the nullish fallback
only fires on an absent cell; the stored value then lies outside the
declared three-literal enum. -/
theorem import_keeps_unrecognized_proximity :
    (importPersonRow "f" badPersonRow).proximity = "inconnu" ∧
    (importRelationRow "f" badRelationRow).proximity = "inconnu" ∧
    ("inconnu" ≠ "fort" ∧ "inconnu" ≠ "moyen" ∧ "inconnu" ≠ "faible") := by
  refine ⟨rfl, rfl, by decide⟩

/-- C8: a connect gesture with truthy endpoints stores the pending pair
without touching persons or relations; committing a proximity then
appends exactly one relation carrying the captured pair and the chosen
proximity and clears the pending slot; cancelling instead clears the slot
and creates nothing. -/
theorem connect_then_choose_or_cancel (s : MapState) (src tgt fresh p : String)
    (hidle : s.pendingConnect = none) (hs : src ≠ "") (ht : tgt ≠ "") :
    (onConnect s ⟨some src, some tgt⟩).persons = s.persons ∧
    (onConnect s ⟨some src, some tgt⟩).relations = s.relations ∧
    (onConnect s ⟨some src, some tgt⟩).pendingConnect = some ⟨some src, some tgt⟩ ∧
    commitConnection (onConnect s ⟨some src, some tgt⟩) fresh p =
      { s with
        relations := s.relations ++
          [{ id := fresh, sourceId := src, targetId := tgt, proximity := p }]
        pendingConnect := none } ∧
    cancelConnection (onConnect s ⟨some src, some tgt⟩) = { s with pendingConnect := none } := by
  refine ⟨rfl, rfl, rfl, ?_, rfl⟩
  simp [commitConnection, onConnect, hs, ht]

/-- Witness for C8 at the demo store with endpoints a and b. -/
theorem connect_then_choose_or_cancel_witness :
    (sDemo.pendingConnect = none ∧ ("a" : String) ≠ "" ∧ ("b" : String) ≠ "") ∧
    ((onConnect sDemo ⟨some "a", some "b"⟩).persons = sDemo.persons ∧
     (onConnect sDemo ⟨some "a", some "b"⟩).relations = sDemo.relations ∧
     (onConnect sDemo ⟨some "a", some "b"⟩).pendingConnect = some ⟨some "a", some "b"⟩ ∧
     commitConnection (onConnect sDemo ⟨some "a", some "b"⟩) "r2" "moyen" =
       { sDemo with
         relations := sDemo.relations ++
           [{ id := "r2", sourceId := "a", targetId := "b", proximity := "moyen" }]
         pendingConnect := none } ∧
     cancelConnection (onConnect sDemo ⟨some "a", some "b"⟩) =
       { sDemo with pendingConnect := none }) :=
  ⟨⟨rfl, by decide, by decide⟩,
   connect_then_choose_or_cancel sDemo "a" "b" "r2" "moyen" rfl (by decide) (by decide)⟩

/-- C2: when the server table mirrors the local persons (the state every
session starts from) and either endpoint id names no person in the store,
addRelation reports an error and returns the store unchanged: no relation
is created. -/
theorem addRelation_unknown_endpoint (s : MapState) (serverPersonIds : List String)
    (fresh sid tid prox : String)
    (hsync : serverPersonIds = s.persons.map Person.id)
    (h : (¬ ∃ p ∈ s.persons, p.id = sid) ∨ (¬ ∃ p ∈ s.persons, p.id = tid)) :
    addRelation s serverPersonIds fresh sid tid prox = (s, true) := by
  subst hsync
  have hc : ((s.persons.map Person.id).contains sid &&
      (s.persons.map Person.id).contains tid) = false := by
    rcases h with h | h
    · have hf : ((s.persons.map Person.id).contains sid) = false := by
        rw [Bool.eq_false_iff]
        intro hcon
        rcases List.mem_map.mp (List.elem_iff.mp hcon) with ⟨p, hp, hpid⟩
        exact h ⟨p, hp, hpid⟩
      simp only [hf, Bool.false_and]
    · have hf : ((s.persons.map Person.id).contains tid) = false := by
        rw [Bool.eq_false_iff]
        intro hcon
        rcases List.mem_map.mp (List.elem_iff.mp hcon) with ⟨p, hp, hpid⟩
        exact h ⟨p, hp, hpid⟩
      simp only [hf, Bool.and_false]
  unfold addRelation
  rw [hc]
  rfl

/-- Witness for C2: adding a relation from a to the unknown id z over the
demo store fails and changes nothing. -/
theorem addRelation_unknown_endpoint_witness :
    ((sDemo.persons.map Person.id) = sDemo.persons.map Person.id ∧
     ((¬ ∃ p ∈ sDemo.persons, p.id = "a") ∨ (¬ ∃ p ∈ sDemo.persons, p.id = "z"))) ∧
    addRelation sDemo (sDemo.persons.map Person.id) "r2" "a" "z" "fort" = (sDemo, true) :=
  ⟨⟨rfl, Or.inr (by decide)⟩,
   addRelation_unknown_endpoint sDemo (sDemo.persons.map Person.id) "r2" "a" "z" "fort"
     rfl (Or.inr (by decide))⟩

/-- The first early return of the filter fires exactly when the proximity
clause fails. -/
theorem proxFail_iff (pf : String) (p : Person) :
    (pf != "all" && p.proximity != pf) = true ↔ (pf ≠ "all" ∧ p.proximity ≠ pf) := by
  rw [Bool.and_eq_true, bne_iff_ne, bne_iff_ne]

/-- The second early return of the filter fires exactly when the category
clause fails. -/
theorem catFail_iff (cf : List String) (p : Person) :
    (!cf.isEmpty && !((p.categories.getD []).any fun c => cf.contains c)) = true ↔
      (cf ≠ [] ∧ ∀ c ∈ p.categories.getD [], c ∉ cf) := by
  rw [Bool.and_eq_true, Bool.not_eq_true', Bool.not_eq_true', List.isEmpty_eq_false]
  constructor
  · rintro ⟨h1, h2⟩
    refine ⟨h1, ?_⟩
    intro c hc hcf
    have : (p.categories.getD []).any (fun c => cf.contains c) = true :=
      List.any_eq_true.mpr ⟨c, hc, List.elem_iff.mpr hcf⟩
    rw [this] at h2
    exact absurd h2 (by simp)
  · rintro ⟨h1, h2⟩
    refine ⟨h1, ?_⟩
    cases hany : (p.categories.getD []).any fun c => cf.contains c
    · rfl
    · rcases List.any_eq_true.mp hany with ⟨c, hc, hcf⟩
      exact absurd (List.elem_iff.mp hcf) (h2 c hc)

/-- Characterization of the per-person filter predicate in terms of the
three clauses of the specification, for an already trimmed and lowercased
term. -/
theorem personPasses_eq_true_iff (term pf : String) (cf : List String) (p : Person) :
    personPasses term pf cf p = true ↔
      ((pf = "all" ∨ p.proximity = pf) ∧
       (cf = [] ∨ ∃ c ∈ p.categories.getD [], c ∈ cf) ∧
       (term = "" ∨ strContains (strToLower (hayOf p)) term = true)) := by
  unfold personPasses
  split_ifs with h1 h2 h3
  · rw [proxFail_iff] at h1
    constructor
    · intro hfalse
      exact absurd hfalse (by simp)
    · rintro ⟨hA, -, -⟩
      rcases hA with he | he
      · exact absurd he h1.1
      · exact absurd he h1.2
  · rw [catFail_iff] at h2
    constructor
    · intro hfalse
      exact absurd hfalse (by simp)
    · rintro ⟨-, hB, -⟩
      rcases hB with he | ⟨c, hc, hcf⟩
      · exact absurd he h2.1
      · exact absurd hcf (h2.2 c hc)
  · have hA : pf = "all" ∨ p.proximity = pf := by
      by_contra hno
      push_neg at hno
      exact h1 ((proxFail_iff pf p).mpr hno)
    have hB : cf = [] ∨ ∃ c ∈ p.categories.getD [], c ∈ cf := by
      by_contra hno
      push_neg at hno
      exact h2 ((catFail_iff cf p).mpr hno)
    constructor
    · intro _
      exact ⟨hA, hB, Or.inl h3⟩
    · intro _
      rfl
  · have hA : pf = "all" ∨ p.proximity = pf := by
      by_contra hno
      push_neg at hno
      exact h1 ((proxFail_iff pf p).mpr hno)
    have hB : cf = [] ∨ ∃ c ∈ p.categories.getD [], c ∈ cf := by
      by_contra hno
      push_neg at hno
      exact h2 ((catFail_iff cf p).mpr hno)
    constructor
    · intro hs
      exact ⟨hA, hB, Or.inr hs⟩
    · rintro ⟨-, -, hC⟩
      rcases hC with he | hs
      · exact absurd he h3
      · exact hs

/-- C5 amended: a person is in the filtered output iff it is in the input
and passes the proximity clause, the category-intersection clause, and
the search clause, where the search box content is first trimmed of
surrounding whitespace and lowercased, and the empty trimmed term passes
everything. -/
theorem filteredPersons_mem_iff (persons : List Person) (search pf : String)
    (cf : List String) (p : Person) :
    p ∈ filteredPersons persons search pf cf ↔
      (p ∈ persons ∧
       (pf = "all" ∨ p.proximity = pf) ∧
       (cf = [] ∨ ∃ c ∈ p.categories.getD [], c ∈ cf) ∧
       (strToLower (strTrim search) = "" ∨
        strContains (strToLower (hayOf p)) (strToLower (strTrim search)) = true)) := by
  unfold filteredPersons
  rw [List.mem_filter, personPasses_eq_true_iff]

/-- Person used by the search counterexample. -/
def pSearch : Person :=
  { id := "p5", firstName := "Alice", lastName := "Durand", company := none,
    comment := none, proximity := "moyen", categories := some [], position := none }

/-- Counterexample to C5 as stated: the search term with a trailing space
is not empty and is not a substring of the concatenated haystack, yet the
person is in the filtered output, because the code trims the term before
matching. -/
theorem filteredPersons_counterexample :
    filteredPersons [pSearch] "moyen " "all" [] = [pSearch] ∧
    ("moyen " : String) ≠ "" ∧
    strContains (strToLower (hayOf pSearch)) (strToLower "moyen ") = false := by
  refine ⟨by decide, by decide, by decide⟩

/-- C6: a relation is in the visible output iff it is in the store and
both its sourceId and targetId are ids of persons passing the current
filter; moreover the visible output is a sublist of the stored relations,
which the pure filtering never modifies. -/
theorem visibleRelations_spec (ps : List Person) (rel : List Relation)
    (se pf : String) (cf : List String) :
    (∀ r, r ∈ visibleRelations rel (filteredPersons ps se pf cf) ↔
      (r ∈ rel ∧
       (∃ p ∈ filteredPersons ps se pf cf, p.id = r.sourceId) ∧
       (∃ p ∈ filteredPersons ps se pf cf, p.id = r.targetId))) ∧
    (visibleRelations rel (filteredPersons ps se pf cf)).Sublist rel := by
  constructor
  · intro r
    simp only [visibleRelations, List.mem_filter, Bool.and_eq_true]
    constructor
    · rintro ⟨hr, h1, h2⟩
      refine ⟨hr, ?_, ?_⟩
      · rcases List.mem_map.mp (List.elem_iff.mp h1) with ⟨p, hp, hpid⟩
        exact ⟨p, hp, hpid⟩
      · rcases List.mem_map.mp (List.elem_iff.mp h2) with ⟨p, hp, hpid⟩
        exact ⟨p, hp, hpid⟩
    · rintro ⟨hr, ⟨p1, hp1, hid1⟩, ⟨p2, hp2, hid2⟩⟩
      exact ⟨hr, List.elem_iff.mpr (List.mem_map.mpr ⟨p1, hp1, hid1⟩),
        List.elem_iff.mpr (List.mem_map.mpr ⟨p2, hp2, hid2⟩)⟩
  · exact List.filter_sublist _

/-- Exporting then importing treats an optional string column the same as
its empty-string-defaulted cell. -/
theorem jsTruthyOpt_getD (o : Option String) :
    jsTruthyOpt (some (o.getD "")) = jsTruthyOpt o := by
  cases o <;> simp [jsTruthyOpt]

/-- Per-person effect of export immediately followed by import: exactly
the normalizePerson transformation, whatever fresh id the generator would
have produced. -/
theorem import_export_person (fresh : String) (p : Person) :
    importPersonRow fresh (personToRow p) = normalizePerson p := by
  cases hpos : p.position with
  | none =>
    simp [importPersonRow, personToRow, normalizePerson, jsTruthyOpt_getD, hpos]
  | some xy =>
    simp [importPersonRow, personToRow, normalizePerson, jsTruthyOpt_getD, hpos]

/-- Per-relation effect of export immediately followed by import: the
identity, since every column is present in the exported row. -/
theorem import_export_relation (fresh : String) (r : Relation) :
    importRelationRow fresh (relationToRow r) = r := rfl

/-- Importing the exported Persons sheet yields the normalized persons,
whatever the id generator and its starting index. -/
theorem importRowsFrom_person_export (g : Nat → String) (ps : List Person) (n : Nat) :
    importRowsFrom importPersonRow g n (ps.map personToRow) = ps.map normalizePerson := by
  induction ps generalizing n with
  | nil => rfl
  | cons a t ih => simp [importRowsFrom, import_export_person, ih]

/-- Importing the exported Relations sheet yields the original relations. -/
theorem importRowsFrom_relation_export (g : Nat → String) (rs : List Relation) (n : Nat) :
    importRowsFrom importRelationRow g n (rs.map relationToRow) = rs := by
  induction rs generalizing n with
  | nil => rfl
  | cons a t ih => simp [importRowsFrom, import_export_relation, ih]

/-- C3 amended: exporting the whole state and immediately importing the
resulting workbook succeeds (no format error) and reproduces the
relations exactly and each person up to normalizePerson: every field is
preserved, including the order of the category set, except that an
empty-string company or comment becomes absent and the categories set is
replaced by the re-split of its bar-join (the identity whenever the set
is present and no member is empty or contains the bar delimiter; an
absent set becomes the empty set). Counts are preserved on both sheets. -/
theorem export_import_roundtrip (s : MapState) (genP genR : Nat → String) :
    importExcel s (exportWorkbook s) genP genR =
      ({ persons := s.persons.map normalizePerson,
         relations := s.relations,
         pendingConnect := s.pendingConnect }, false) := by
  unfold importExcel exportWorkbook
  simp [importRowsFrom_person_export, importRowsFrom_relation_export]

/-- Person whose company is the empty string, as produced by the add form
when the company box is left empty. -/
def pEmptyCompany : Person :=
  { id := "p1", firstName := "Marie", lastName := "Dupont", company := some "",
    comment := none, proximity := "fort", categories := some ["Partenaire"],
    position := none }

/-- Store holding that person, used by the round-trip counterexample. -/
def sRound : MapState :=
  { persons := [pEmptyCompany], relations := [], pendingConnect := none }

/-- Counterexample to C3 as stated: the round trip changes the company
field value of a person whose company is the empty string to the absent
value, while leaving its category set untouched, so the resulting person
set is not equal to the original modulo category ordering alone. -/
theorem export_import_roundtrip_counterexample :
    (importExcel sRound (exportWorkbook sRound) (fun _ => "g") (fun _ => "g")).1.persons =
      [{ pEmptyCompany with company := none }] ∧
    pEmptyCompany.company = some "" ∧
    ({ pEmptyCompany with company := none } : Person).categories = pEmptyCompany.categories ∧
    [({ pEmptyCompany with company := none } : Person)] ≠ [pEmptyCompany] := by
  refine ⟨by decide, rfl, rfl, by decide⟩

/-- C10: updating the proximity of the relation at a given position,
through its id, changes only the proximity field of that relation: the
persons collection, the pending slot and the relations count are
unchanged, the relation at that position keeps its id, sourceId and
targetId, and, relation ids being unique, every relation at another
position is entirely unchanged. -/
theorem updateRelationProximity_frame (s : MapState) (i : Nat) (p : String)
    (hi : i < s.relations.length)
    (huniq : (s.relations.map Relation.id).Nodup) :
    (updateRelationProximity s ((s.relations.getD i dRel).id) p).persons = s.persons ∧
    (updateRelationProximity s ((s.relations.getD i dRel).id) p).pendingConnect =
      s.pendingConnect ∧
    (updateRelationProximity s ((s.relations.getD i dRel).id) p).relations.length =
      s.relations.length ∧
    (updateRelationProximity s ((s.relations.getD i dRel).id) p).relations.getD i dRel =
      { s.relations.getD i dRel with proximity := p } ∧
    (∀ j, j < s.relations.length → j ≠ i →
      (updateRelationProximity s ((s.relations.getD i dRel).id) p).relations.getD j dRel =
        s.relations.getD j dRel) := by
  have hgi : s.relations.getD i dRel = s.relations[i] := List.getD_eq_getElem _ _ hi
  refine ⟨rfl, rfl, by simp [updateRelationProximity], ?_, ?_⟩
  · rw [hgi]
    have hrel : (updateRelationProximity s (s.relations[i]).id p).relations =
        s.relations.map
          (fun r => if r.id == (s.relations[i]).id then { r with proximity := p }
            else r) := rfl
    rw [hrel, List.getD_eq_getElem?_getD, List.getElem?_map, List.getElem?_eq_getElem hi]
    simp
  · intro j hj hne
    rw [hgi]
    have hgj : s.relations.getD j dRel = s.relations[j] := List.getD_eq_getElem _ _ hj
    rw [hgj]
    have hid : (s.relations[j]).id ≠ (s.relations[i]).id := by
      intro he
      apply hne
      have h1 : (s.relations.map Relation.id).get ⟨j, by simpa using hj⟩ =
          (s.relations.map Relation.id).get ⟨i, by simpa using hi⟩ := by
        simpa using he
      have h2 := (List.Nodup.get_inj_iff huniq).mp h1
      simpa using h2
    have hrel : (updateRelationProximity s (s.relations[i]).id p).relations =
        s.relations.map
          (fun r => if r.id == (s.relations[i]).id then { r with proximity := p }
            else r) := rfl
    rw [hrel, List.getD_eq_getElem?_getD, List.getElem?_map, List.getElem?_eq_getElem hj]
    simp [hid]

/-- Store with two distinctly identified relations, for the C10 witness. -/
def sTwoRel : MapState :=
  { persons := []
    relations :=
      [{ id := "r1", sourceId := "a", targetId := "b", proximity := "moyen" },
       { id := "r2", sourceId := "b", targetId := "a", proximity := "faible" }]
    pendingConnect := none }

/-- Witness for C10 at the two-relation store, updating the first
relation to proximity fort. -/
theorem updateRelationProximity_frame_witness :
    (0 < sTwoRel.relations.length ∧ (sTwoRel.relations.map Relation.id).Nodup) ∧
    ((updateRelationProximity sTwoRel ((sTwoRel.relations.getD 0 dRel).id) "fort").persons =
        sTwoRel.persons ∧
     (updateRelationProximity sTwoRel ((sTwoRel.relations.getD 0 dRel).id) "fort").pendingConnect =
        sTwoRel.pendingConnect ∧
     (updateRelationProximity sTwoRel ((sTwoRel.relations.getD 0 dRel).id) "fort").relations.length =
        sTwoRel.relations.length ∧
     (updateRelationProximity sTwoRel ((sTwoRel.relations.getD 0 dRel).id) "fort").relations.getD 0 dRel =
        { sTwoRel.relations.getD 0 dRel with proximity := "fort" } ∧
     (∀ j, j < sTwoRel.relations.length → j ≠ 0 →
       (updateRelationProximity sTwoRel ((sTwoRel.relations.getD 0 dRel).id) "fort").relations.getD j dRel =
         sTwoRel.relations.getD j dRel)) :=
  ⟨⟨by decide, by decide⟩,
   updateRelationProximity_frame sTwoRel 0 "fort" (by decide) (by decide)⟩

end HumanLinkMap
